import Mathlib

/-!
Verification of the ImageMapper core: the HTML image-map parser
(src/utils/map_parser.py) and the image slicer (src/utils/image_slicer.py),
together with the per-request batch loop of src/app.py.

The Python code is shallowly embedded: pure fragments become Lean
functions, PIL images become records of their pixel dimensions and source
format, exceptions become Except/Option, and the BeautifulSoup HTML
parser is abstracted as a function parameter producing the list of area
elements (its behaviour is third-party library code, not part of this
repository).
-/

/-! ## Python string primitives used by the source -/

/-- The whitespace characters removed by Python str.strip with no
argument: space, tab, newline, carriage return, vertical tab, form feed. -/
def isPySpace (c : Char) : Bool :=
  c = ' ' || c = '\t' || c = '\n' || c = '\r' || c = '\x0b' || c = '\x0c'

/-- Python str.strip: remove leading and trailing whitespace. -/
def pyStrip (s : String) : String :=
  String.mk (((s.toList.dropWhile isPySpace).reverse.dropWhile isPySpace).reverse)

/-- Python str.lower restricted to the ASCII case mapping (the attribute
values compared in the source are ASCII shape names). -/
def pyLower (s : String) : String :=
  String.mk (s.toList.map Char.toLower)

/-- Python str.startswith. -/
def pyStartswith (s pre : String) : Bool :=
  pre.toList.isPrefixOf s.toList

/-- Helper for pySplitComma: accumulate the current token until a comma. -/
def pySplitCommaAux : List Char → List Char → List String
  | [], cur => [String.mk cur.reverse]
  | ',' :: rest, cur => String.mk cur.reverse :: pySplitCommaAux rest []
  | c :: rest, cur => pySplitCommaAux rest (c :: cur)

/-- Python str.split on a comma separator: keeps empty tokens, and the
empty string yields a single empty token. -/
def pySplitComma (s : String) : List String :=
  pySplitCommaAux s.toList []

/-- Digit-string to Nat; none unless the string is one or more ASCII
digits. -/
def pyDigits : List Char → Option Nat
  | [] => none
  | cs =>
    if cs.all Char.isDigit then
      some (cs.foldl (fun n c => 10 * n + (c.toNat - '0'.toNat)) 0)
    else
      none

/-- Python int(s) on an already-stripped token: an optional sign followed
by ASCII digits; anything else raises ValueError, modelled as none.
(Underscore digit grouping and non-ASCII digits are not modelled.) -/
def pyInt (s : String) : Option Int :=
  match s.toList with
  | '+' :: rest => (pyDigits rest).map Int.ofNat
  | '-' :: rest => (pyDigits rest).map (fun n => -(n : Int))
  | cs => (pyDigits cs).map Int.ofNat

/-! ## Data model -/

/-- One area element as produced by BeautifulSoup find_all: each
attribute is present (some v) or absent (none). area.get(k, d) is
modelled by Option.getD. -/
structure AreaTag where
  coords : Option String
  href : Option String
  alt : Option String
  title : Option String
  shape : Option String
deriving DecidableEq, Repr

/-- One parsed region dictionary appended to parsed_areas in
parse_html_map. -/
structure Region where
  coords : List Int
  href : String
  alt : String
  title : String
  shape : String
deriving DecidableEq, Repr

/-! ## Map parser (src/utils/map_parser.py) -/

/-- The list comprehension of line 40 of map_parser.py:
int(x.strip()) for x in coords_str.split(','), where a ValueError from
any token (modelled by none) aborts the whole comprehension. -/
def areaCoordsInts (area : AreaTag) : Option (List Int) :=
  (pySplitComma (area.coords.getD "")).mapM (fun x => pyInt (pyStrip x))

/-- The body of the per-area loop of parse_html_map (lines 30-68):
none models the continue branches (missing or empty coords, a
ValueError from int(), a wrong token count, an unsupported shape);
some r models appending the region dictionary. -/
def parse_area (area : AreaTag) : Option Region :=
  let coords_str := area.coords.getD ""
  if coords_str = "" then none
  else
    match areaCoordsInts area with
    | none => none
    | some coords =>
      if coords.length ≠ 4 then none
      else
        let href := area.href.getD "#"
        let alt := area.alt.getD ""
        let title := area.title.getD ""
        let shape := area.shape.getD "rect"
        if pyLower shape ≠ "rect" then none
        else some { coords := coords, href := href, alt := alt,
                    title := title, shape := shape }

/-- The loop over all area elements: regions are appended in document
order, skipped elements contribute nothing. -/
def parse_areas : List AreaTag → List Region
  | [] => []
  | area :: rest =>
    match parse_area area with
    | some r => r :: parse_areas rest
    | none => parse_areas rest

/-- Line 21 of parse_html_map: wrap bare area fragments in a synthetic
map container after stripping. -/
def wrapHtml (html_content : String) : String :=
  let s := pyStrip html_content
  if pyStartswith s "<map" then s else "<map name=\"temp\">" ++ s ++ "</map>"

/-- parse_html_map (lines 15-77). The structural HTML parse
(BeautifulSoup plus find_all of area elements) is third-party code,
abstracted as the parameter findAllAreas; an Except.error models an
exception escaping it, which the outer try of the source converts to
the empty list. -/
def parse_html_map (findAllAreas : String → Except String (List AreaTag))
    (html_content : String) : List Region :=
  match findAllAreas (wrapHtml html_content) with
  | .error _ => []
  | .ok areas => parse_areas areas

/-- validate_coordinates (map_parser.py lines 79-103): the tuple unpack
of a list whose length is not 4 raises, caught and turned into False. -/
def validate_coordinates (coords : List Int) (image_width image_height : Int) : Bool :=
  match coords with
  | [x1, y1, x2, y2] =>
    if x1 ≥ 0 && y1 ≥ 0 && x2 ≤ image_width && y2 ≤ image_height
        && x1 < x2 && y1 < y2 then
      true
    else
      false
  | _ => false

/-! ## Image slicer (src/utils/image_slicer.py) -/

/-- A PIL image, reduced to what the slicer inspects: pixel dimensions
and the source format the file was decoded from. -/
structure Image where
  width : Int
  height : Int
  format : String
deriving DecidableEq, Repr

/-- A file written by cropped_img.save: its path, the format it was
encoded with, and its pixel dimensions. -/
structure SavedFile where
  path : String
  format : String
  width : Int
  height : Int
deriving DecidableEq, Repr

/-- os.path.join for the two-argument calls in the source (POSIX). -/
def ospathJoin (dir file : String) : String :=
  if pyStartswith file "/" then file
  else if dir = "" then file
  else if dir.endsWith "/" then dir ++ file
  else dir ++ "/" ++ file

/-- The ValueError message raised for an out-of-bounds rectangle
(image_slicer.py line 29). -/
def boundsMsg (coords : List Int) (w h : Int) : String :=
  "Coordinates " ++ toString coords ++ " are outside image bounds ("
    ++ toString w ++ "x" ++ toString h ++ ")"

/-- The ValueError message raised for a degenerate rectangle
(image_slicer.py line 32). -/
def degenerateMsg (x1 y1 x2 y2 : Int) : String :=
  "Invalid coordinates: x1=" ++ toString x1 ++ ", y1=" ++ toString y1
    ++ ", x2=" ++ toString x2 ++ ", y2=" ++ toString y2

/-- slice_image (image_slicer.py lines 5-49). Validation raises
ValueError for out-of-bounds and for degenerate rectangles; the outer
except re-raises every exception as one generic failure whose message
starts with the fixed prefix, so the model returns Except.error with
that message. On success the crop of the half-open rectangle is saved
as PNG at outputDir/slice_<index>.png and the path is returned. -/
def slice_image (img : Image) (coords : List Int) (slice_index : Nat)
    (output_dir : String) : Except String SavedFile :=
  match coords with
  | [x1, y1, x2, y2] =>
    if x1 < 0 || y1 < 0 || x2 > img.width || y2 > img.height then
      .error ("Failed to slice image: " ++ boundsMsg coords img.width img.height)
    else if x1 ≥ x2 || y1 ≥ y2 then
      .error ("Failed to slice image: " ++ degenerateMsg x1 y1 x2 y2)
    else
      .ok { path := ospathJoin output_dir ("slice_" ++ toString slice_index ++ ".png"),
            format := "PNG",
            width := x2 - x1,
            height := y2 - y1 }
  | _ => .error ("Failed to slice image: " ++ "cannot unpack coordinates")

/-! ## The per-request batch loop (src/app.py, process_image lines 122-143)

The loop slices region i with index i into the session slices
directory; on the first failure it calls cleanup_session_files (which
removes every file written so far) and delivers nothing. On success the
delivered list holds one entry per region, and the session directory is
likewise cleaned up after the archive is built. The upload collaborator
is outside this core and is modelled as always succeeding. The result
pair is (delivered slices if any, files left in the session directory).
-/

/-- The enumerate loop of process_image: i is the current slice index,
acc the slices delivered so far (most recent first). -/
def process_slices (img : Image) (dir : String) :
    List Region → Nat → List SavedFile → Option (List SavedFile) × List SavedFile
  | [], _, acc => (some acc.reverse, [])
  | area :: rest, i, acc =>
    match slice_image img area.coords i dir with
    | .ok f => process_slices img dir rest (i + 1) (f :: acc)
    | .error _ => (none, [])

/-- process_image restricted to its slicing batch: parse results in,
(delivered, remaining session files) out. -/
def process_image (img : Image) (areas : List Region) (dir : String) :
    Option (List SavedFile) × List SavedFile :=
  process_slices img dir areas 0 []

/-! ## Spec-side predicates -/

/-- The validity predicate the spec attaches to one area element:
coords present and nonempty, exactly four integer tokens, and a
supported shape (absent, or equal to rect case-insensitively). -/
def isValidArea (a : AreaTag) : Bool :=
  a.coords.getD "" ≠ "" &&
  (match areaCoordsInts a with
   | some cs => cs.length == 4
   | none => false) &&
  pyLower (a.shape.getD "rect") == "rect"

/-- The region dictionary built from a valid area element. -/
def regionOf (a : AreaTag) : Region :=
  { coords := (areaCoordsInts a).getD []
    href := a.href.getD "#"
    alt := a.alt.getD ""
    title := a.title.getD ""
    shape := a.shape.getD "rect" }

/-- A region whose coordinate list is a quadruple with x1 less than x2
and y1 less than y2. -/
def regionOrdered (r : Region) : Bool :=
  match r.coords with
  | [x1, y1, x2, y2] => x1 < x2 && y1 < y2
  | _ => false

/-! ## Parser lemmas -/

/-- An empty coords string can never produce an integer list: split
yields the single empty token and int of the empty string raises. -/
lemma areaCoordsInts_of_empty (a : AreaTag) (h : a.coords.getD "" = "") :
    areaCoordsInts a = none := by
  unfold areaCoordsInts
  rw [h]
  rfl

/-- The loop body accepts exactly the valid area elements and builds
the region dictionary from the element's attributes. -/
lemma parse_area_eq (a : AreaTag) :
    parse_area a = if isValidArea a then some (regionOf a) else none := by
  unfold parse_area isValidArea regionOf
  by_cases h0 : a.coords.getD "" = ""
  · simp [h0, areaCoordsInts_of_empty a h0]
  · cases hm : areaCoordsInts a with
    | none => simp [h0, hm]
    | some cs =>
      by_cases h4 : cs.length = 4
      · by_cases hs : pyLower (a.shape.getD "rect") = "rect" <;>
          simp [h0, hm, h4, hs]
      · simp [h0, hm, h4]

/-- The whole loop equals filtering the valid elements and mapping the
region construction over them, in document order. -/
lemma parse_areas_eq (areas : List AreaTag) :
    parse_areas areas = (areas.filter isValidArea).map regionOf := by
  induction areas with
  | nil => rfl
  | cons a rest ih =>
    simp only [parse_areas, parse_area_eq a, List.filter_cons]
    by_cases h : isValidArea a <;> simp [h, ih]

/-- If every element is skipped, the loop returns the empty list. -/
lemma parse_areas_eq_nil (areas : List AreaTag)
    (h : ∀ a ∈ areas, parse_area a = none) : parse_areas areas = [] := by
  induction areas with
  | nil => rfl
  | cons a rest ih =>
    simp only [parse_areas]
    rw [h a (by simp)]
    exact ih (fun x hx => h x (by simp [hx]))

/-- A valid element's region has exactly four coordinates. -/
lemma regionOf_coords_length (a : AreaTag) (h : isValidArea a = true) :
    (regionOf a).coords.length = 4 := by
  unfold isValidArea at h
  simp only [Bool.and_eq_true] at h
  obtain ⟨⟨-, hmid⟩, -⟩ := h
  cases hm : areaCoordsInts a with
  | none => rw [hm] at hmid; simp at hmid
  | some cs =>
    rw [hm] at hmid
    simp only [beq_iff_eq] at hmid
    simp [regionOf, hm, hmid]

/-! ## Slicer lemmas -/

/-- A string starts with any prefix it is built from by appending. -/
lemma pyStartswith_append (p s : String) : pyStartswith (p ++ s) p = true := by
  simp only [pyStartswith, String.toList]
  rw [String.data_append]
  rw [List.isPrefixOf_iff_prefix]
  exact List.prefix_append _ _

/-- slice_image succeeds on an in-bounds nondegenerate rectangle and
returns the PNG slice path with the cropped dimensions. -/
lemma slice_image_valid (img : Image) (x1 y1 x2 y2 : Int) (i : Nat) (dir : String)
    (hx1 : 0 ≤ x1) (hy1 : 0 ≤ y1) (hx2 : x2 ≤ img.width) (hy2 : y2 ≤ img.height)
    (hx : x1 < x2) (hy : y1 < y2) :
    slice_image img [x1, y1, x2, y2] i dir =
      .ok { path := ospathJoin dir ("slice_" ++ toString i ++ ".png")
            format := "PNG", width := x2 - x1, height := y2 - y1 } := by
  have hb : (decide (x1 < 0) || decide (y1 < 0) || decide (x2 > img.width)
      || decide (y2 > img.height)) = false := by
    simp; omega
  have hd : (decide (x1 ≥ x2) || decide (y1 ≥ y2)) = false := by
    simp; omega
  simp [slice_image, hb, hd]

/-- slice_image rejects an out-of-bounds rectangle with the generic
failure message wrapping the bounds ValueError. -/
lemma slice_image_bounds_error (img : Image) (x1 y1 x2 y2 : Int) (i : Nat)
    (dir : String) (h : x1 < 0 ∨ y1 < 0 ∨ x2 > img.width ∨ y2 > img.height) :
    slice_image img [x1, y1, x2, y2] i dir =
      .error ("Failed to slice image: " ++ boundsMsg [x1, y1, x2, y2] img.width img.height) := by
  have hb : (decide (x1 < 0) || decide (y1 < 0) || decide (x2 > img.width)
      || decide (y2 > img.height)) = true := by
    simp; omega
  simp [slice_image, hb]

/-- slice_image rejects an in-bounds degenerate rectangle with the
generic failure message wrapping the degenerate ValueError. -/
lemma slice_image_degenerate_error (img : Image) (x1 y1 x2 y2 : Int) (i : Nat)
    (dir : String) (hin : 0 ≤ x1 ∧ 0 ≤ y1 ∧ x2 ≤ img.width ∧ y2 ≤ img.height)
    (h : x1 ≥ x2 ∨ y1 ≥ y2) :
    slice_image img [x1, y1, x2, y2] i dir =
      .error ("Failed to slice image: " ++ degenerateMsg x1 y1 x2 y2) := by
  have hb : (decide (x1 < 0) || decide (y1 < 0) || decide (x2 > img.width)
      || decide (y2 > img.height)) = false := by
    simp; omega
  have hd : (decide (x1 ≥ x2) || decide (y1 ≥ y2)) = true := by
    simp; omega
  simp [slice_image, hb, hd]

/-- slice_image fails whenever the rectangle is out of bounds or
degenerate, and the failure is always the one generic message prefix. -/
lemma slice_image_error_of_invalid (img : Image) (x1 y1 x2 y2 : Int) (i : Nat)
    (dir : String)
    (h : x1 < 0 ∨ y1 < 0 ∨ x2 > img.width ∨ y2 > img.height ∨ x1 ≥ x2 ∨ y1 ≥ y2) :
    ∃ msg, slice_image img [x1, y1, x2, y2] i dir =
      .error ("Failed to slice image: " ++ msg) := by
  by_cases hb : x1 < 0 ∨ y1 < 0 ∨ x2 > img.width ∨ y2 > img.height
  · exact ⟨_, slice_image_bounds_error img x1 y1 x2 y2 i dir hb⟩
  · refine ⟨_, slice_image_degenerate_error img x1 y1 x2 y2 i dir (by omega) (by omega)⟩

/-- slice_image fails on any coordinate list that does not unpack into
four values. -/
lemma slice_image_not_four (img : Image) (coords : List Int) (i : Nat)
    (dir : String) (h : coords.length ≠ 4) :
    slice_image img coords i dir =
      .error ("Failed to slice image: " ++ "cannot unpack coordinates") := by
  match coords with
  | [] => rfl
  | [a] => rfl
  | [a, b] => rfl
  | [a, b, c] => rfl
  | [a, b, c, d] => simp at h
  | a :: b :: c :: d :: e :: rest => rfl

/-- validate_coordinates on a quadruple decides the conjunction of the
bounds and ordering checks. -/
lemma validate_coordinates_four (x1 y1 x2 y2 W H : Int) :
    validate_coordinates [x1, y1, x2, y2] W H = true ↔
      0 ≤ x1 ∧ 0 ≤ y1 ∧ x2 ≤ W ∧ y2 ≤ H ∧ x1 < x2 ∧ y1 < y2 := by
  simp [validate_coordinates]
  omega

/-- validate_coordinates returns False when the list cannot be unpacked
into four values. -/
lemma validate_coordinates_not_four (coords : List Int) (W H : Int)
    (h : coords.length ≠ 4) : validate_coordinates coords W H = false := by
  match coords with
  | [] => rfl
  | [a] => rfl
  | [a, b] => rfl
  | [a, b, c] => rfl
  | [a, b, c, d] => simp at h
  | a :: b :: c :: d :: e :: rest => rfl

/-- validate_coordinates accepts a coordinate list exactly when
slice_image's own validation lets that list through to the crop. -/
lemma validate_iff_slice_ok (img : Image) (coords : List Int) (i : Nat)
    (dir : String) :
    validate_coordinates coords img.width img.height = true ↔
      ∃ f, slice_image img coords i dir = .ok f := by
  match coords with
  | [x1, y1, x2, y2] =>
    rw [validate_coordinates_four]
    constructor
    · intro h
      exact ⟨_, slice_image_valid img x1 y1 x2 y2 i dir h.1 h.2.1 h.2.2.1
        h.2.2.2.1 h.2.2.2.2.1 h.2.2.2.2.2⟩
    · rintro ⟨f, hf⟩
      by_contra hc
      have : x1 < 0 ∨ y1 < 0 ∨ x2 > img.width ∨ y2 > img.height
          ∨ x1 ≥ x2 ∨ y1 ≥ y2 := by omega
      obtain ⟨msg, hmsg⟩ := slice_image_error_of_invalid img x1 y1 x2 y2 i dir this
      rw [hmsg] at hf
      exact Except.noConfusion hf
  | [] | [a] | [a, b] | [a, b, c] =>
    simp [validate_coordinates_not_four, slice_image_not_four]
  | a :: b :: c :: d :: e :: rest =>
    rw [validate_coordinates_not_four _ _ _ (by simp), slice_image_not_four _ _ _ _ (by simp)]
    simp

/-! ## Batch loop lemmas -/

/-- The enumerate loop delivers one slice per region, produced in order
with index matching position, and cleans the session up on the first
failure. -/
lemma process_slices_spec (img : Image) (dir : String) :
    ∀ (areas : List Region) (i : Nat) (acc : List SavedFile),
      (∀ slices rem, process_slices img dir areas i acc = (some slices, rem) →
        rem = [] ∧ ∃ tail, slices = acc.reverse ++ tail ∧
          tail.length = areas.length ∧
          ∀ j (hj : j < areas.length) (hs : j < tail.length),
            slice_image img (areas.get ⟨j, hj⟩).coords (i + j) dir =
              .ok (tail.get ⟨j, hs⟩)) ∧
      ((∃ a ∈ areas, validate_coordinates a.coords img.width img.height = false) →
        process_slices img dir areas i acc = (none, [])) := by
  intro areas
  induction areas with
  | nil =>
    intro i acc
    constructor
    · intro slices rem heq
      simp only [process_slices] at heq
      obtain ⟨h1, h2⟩ := Prod.mk.injEq .. ▸ heq
      refine ⟨(Prod.ext_iff.mp heq).2.symm, [], ?_, rfl, ?_⟩
      · have := (Prod.ext_iff.mp heq).1
        simp at this
        simp [this]
      · intro j hj
        exact absurd hj (Nat.not_lt_zero j)
    · rintro ⟨a, ha, -⟩
      exact absurd ha (List.not_mem_nil a)
  | cons a rest ih =>
    intro i acc
    constructor
    · intro slices rem heq
      simp only [process_slices] at heq
      cases hslice : slice_image img a.coords i dir with
      | error e =>
        rw [hslice] at heq
        simp at heq
      | ok f =>
        rw [hslice] at heq
        obtain ⟨hrem, tail, htail, hlen, hidx⟩ := (ih (i + 1) (f :: acc)).1 slices rem heq
        refine ⟨hrem, f :: tail, ?_, by simp [hlen], ?_⟩
        · rw [htail]
          simp
        · intro j hj hs
          match j with
          | 0 => simpa using hslice
          | Nat.succ j =>
            have : i + (j + 1) = (i + 1) + j := by omega
            rw [this]
            simpa using hidx j (by simpa using hj) (by simpa using hs)
    · rintro ⟨b, hb, hv⟩
      simp only [process_slices]
      rcases List.mem_cons.mp hb with hba | hbr
      · cases hslice : slice_image img a.coords i dir with
        | error e => rfl
        | ok f =>
          have : validate_coordinates a.coords img.width img.height = true :=
            (validate_iff_slice_ok img a.coords i dir).mpr ⟨f, hslice⟩
          rw [hba] at hv
          rw [hv] at this
          exact absurd this (by simp)
      · cases hslice : slice_image img a.coords i dir with
        | error e => rfl
        | ok f => exact (ih (i + 1) (f :: acc)).2 ⟨b, hbr, hv⟩

/-! ## Claim theorems -/

/-- C1: for every image of size W by H and integers with 0 <= x1 < x2 <= W
and 0 <= y1 < y2 <= H, slice_image succeeds, writes a PNG named
slice_<index>.png inside the output directory regardless of the source
format, returns that path, and the written image has width x2 - x1 and
height y2 - y1. -/
theorem slice_valid_rect_writes_png (img : Image) (x1 y1 x2 y2 : Int) (i : Nat)
    (dir : String) (h1 : 0 ≤ x1) (h2 : x1 < x2) (h3 : x2 ≤ img.width)
    (h4 : 0 ≤ y1) (h5 : y1 < y2) (h6 : y2 ≤ img.height) :
    ∃ f, slice_image img [x1, y1, x2, y2] i dir = .ok f ∧
      f.path = ospathJoin dir ("slice_" ++ toString i ++ ".png") ∧
      f.format = "PNG" ∧ f.width = x2 - x1 ∧ f.height = y2 - y1 :=
  ⟨_, slice_image_valid img x1 y1 x2 y2 i dir h1 h4 h3 h6 h2 h5, rfl, rfl, rfl, rfl⟩

/-- Witness for C1 at a 200 by 200 GIF image and rectangle (10,20,110,70). -/
theorem slice_valid_rect_writes_png_witness :
    ∃ f, slice_image ⟨200, 200, "GIF"⟩ [10, 20, 110, 70] 3 "outdir" = .ok f ∧
      f.path = ospathJoin "outdir" ("slice_" ++ toString 3 ++ ".png") ∧
      f.format = "PNG" ∧ f.width = 110 - 10 ∧ f.height = 70 - 20 :=
  slice_valid_rect_writes_png ⟨200, 200, "GIF"⟩ 10 20 110 70 3 "outdir"
    (by decide) (by decide) (by decide) (by decide) (by decide) (by decide)

/-- C2: slice_image fails on every out-of-bounds or degenerate
rectangle; both cases surface as the single generic processing failure
(one error channel, message prefixed by the fixed wrapper text, no
distinct error codes), and no file is produced by that call. -/
theorem slice_invalid_rect_generic_error (img : Image) (x1 y1 x2 y2 : Int)
    (i : Nat) (dir : String)
    (h : (x1 < 0 ∨ y1 < 0 ∨ x2 > img.width ∨ y2 > img.height) ∨ (x1 ≥ x2 ∨ y1 ≥ y2)) :
    ∃ msg, slice_image img [x1, y1, x2, y2] i dir = .error msg ∧
      pyStartswith msg "Failed to slice image: " = true ∧
      ∀ f, slice_image img [x1, y1, x2, y2] i dir ≠ .ok f := by
  obtain ⟨m, hm⟩ := slice_image_error_of_invalid img x1 y1 x2 y2 i dir (by tauto)
  refine ⟨_, hm, pyStartswith_append _ _, ?_⟩
  intro f hf
  rw [hm] at hf
  exact Except.noConfusion hf

/-- Witness for C2 at the degenerate rectangle (10,10,5,5) on a 200 by
200 image. -/
theorem slice_invalid_rect_generic_error_witness :
    ∃ msg, slice_image ⟨200, 200, "PNG"⟩ [10, 10, 5, 5] 0 "out" = .error msg ∧
      pyStartswith msg "Failed to slice image: " = true ∧
      ∀ f, slice_image ⟨200, 200, "PNG"⟩ [10, 10, 5, 5] 0 "out" ≠ .ok f :=
  slice_invalid_rect_generic_error ⟨200, 200, "PNG"⟩ 10 10 5 5 0 "out"
    (Or.inr (by decide))

/-- C8: slicing any image of positive size W by H with the full-image
rectangle (0,0,W,H) succeeds and yields a slice whose pixel dimensions
equal those of the source. -/
theorem slice_full_image_dims (img : Image) (i : Nat) (dir : String)
    (hW : 0 < img.width) (hH : 0 < img.height) :
    ∃ f, slice_image img [0, 0, img.width, img.height] i dir = .ok f ∧
      f.width = img.width ∧ f.height = img.height := by
  refine ⟨_, slice_image_valid img 0 0 img.width img.height i dir
    le_rfl le_rfl le_rfl le_rfl hW hH, ?_, ?_⟩ <;> simp

/-- Witness for C8 at a 200 by 100 JPEG image. -/
theorem slice_full_image_dims_witness :
    ∃ f, slice_image ⟨200, 100, "JPEG"⟩ [0, 0, 200, 100] 0 "out" = .ok f ∧
      f.width = 200 ∧ f.height = 100 :=
  slice_full_image_dims ⟨200, 100, "JPEG"⟩ 0 "out" (by decide) (by decide)

/-- C10: validate_coordinates is total, returns False on any list that
is not a quadruple, returns True exactly on the quadruples satisfying
the bounds and ordering checks, and those are exactly the coordinate
lists on which slice_image's own validation passes. -/
theorem validate_coordinates_correct (coords : List Int) (W H : Int)
    (fmt dir : String) (i : Nat) :
    (coords.length ≠ 4 → validate_coordinates coords W H = false) ∧
    (validate_coordinates coords W H = true ↔
      ∃ x1 y1 x2 y2, coords = [x1, y1, x2, y2] ∧ 0 ≤ x1 ∧ 0 ≤ y1 ∧
        x2 ≤ W ∧ y2 ≤ H ∧ x1 < x2 ∧ y1 < y2) ∧
    (validate_coordinates coords W H = true ↔
      ∃ f, slice_image ⟨W, H, fmt⟩ coords i dir = .ok f) := by
  refine ⟨validate_coordinates_not_four coords W H, ?_,
    validate_iff_slice_ok ⟨W, H, fmt⟩ coords i dir⟩
  match coords with
  | [x1, y1, x2, y2] =>
    rw [validate_coordinates_four]
    constructor
    · intro h
      exact ⟨x1, y1, x2, y2, rfl, h⟩
    · rintro ⟨a, b, c, d, heq, h⟩
      obtain ⟨rfl, rfl, rfl, rfl⟩ : x1 = a ∧ y1 = b ∧ x2 = c ∧ y2 = d := by
        simpa using heq
      exact h
  | [] => simp [validate_coordinates]
  | [a] => simp [validate_coordinates]
  | [a, b] => simp [validate_coordinates]
  | [a, b, c] => simp [validate_coordinates]
  | a :: b :: c :: d :: e :: rest => simp [validate_coordinates]

/-- Witness for C10: a three-element list is rejected and the valid
rectangle (0,0,5,5) in a 10 by 10 image is accepted. -/
theorem validate_coordinates_correct_witness :
    validate_coordinates [1, 2, 3] 10 10 = false ∧
      validate_coordinates [0, 0, 5, 5] 10 10 = true :=
  ⟨(validate_coordinates_correct [1, 2, 3] 10 10 "PNG" "out" 0).1 (by decide),
   (validate_coordinates_correct [0, 0, 5, 5] 10 10 "PNG" "out" 0).2.1.mpr
     ⟨0, 0, 5, 5, rfl, by decide, by decide, by decide, by decide, by decide, by decide⟩⟩

/-- C3: the regions returned equal the valid area elements (coords
present and nonempty, exactly four integer tokens, supported shape)
filtered in document order and turned into region dictionaries; in
particular there is exactly one region per valid element, the length
matches the count of valid elements, and removing or keeping a
malformed element never affects the regions produced by the others. -/
theorem parse_valid_regions_in_order (areas : List AreaTag) :
    parse_areas areas = (areas.filter isValidArea).map regionOf ∧
    (parse_areas areas).length = (areas.filter isValidArea).length ∧
    ∀ l1 l2 bad, isValidArea bad = false →
      parse_areas (l1 ++ bad :: l2) = parse_areas (l1 ++ l2) := by
  refine ⟨parse_areas_eq areas, by rw [parse_areas_eq]; simp, ?_⟩
  intro l1 l2 bad hbad
  rw [parse_areas_eq, parse_areas_eq]
  simp [List.filter_append, List.filter_cons, hbad]

/-- Witness for C3: a malformed element (two coordinate tokens) placed
before a valid element does not change the parse of the rest. -/
theorem parse_valid_regions_in_order_witness :
    parse_areas [AreaTag.mk (some "1,2") none none none none,
        AreaTag.mk (some "0,0,100,50") none none none none] =
      parse_areas [AreaTag.mk (some "0,0,100,50") none none none none] :=
  (parse_valid_regions_in_order []).2.2 []
    [AreaTag.mk (some "0,0,100,50") none none none none]
    (AreaTag.mk (some "1,2") none none none none) (by decide)

/-- C4: parse_html_map is total and returns the empty list both when
the structural parse fails (the outer except converts any exception to
no regions) and when no element survives the per-element checks; with
the parser behaviour BeautifulSoup actually has on the wrapped empty
document (no area elements), the empty input string yields the empty
region sequence. -/
theorem parse_html_never_raises (f : String → Except String (List AreaTag))
    (html : String) :
    (∀ e, f (wrapHtml html) = .error e → parse_html_map f html = []) ∧
    (∀ areas, f (wrapHtml html) = .ok areas →
      (∀ a ∈ areas, parse_area a = none) → parse_html_map f html = []) ∧
    (f "<map name=\"temp\"></map>" = .ok [] → parse_html_map f "" = []) := by
  refine ⟨?_, ?_, ?_⟩
  · intro e he
    simp [parse_html_map, he]
  · intro areas ha hnone
    simp [parse_html_map, ha, parse_areas_eq_nil areas hnone]
  · intro h
    have hw : wrapHtml "" = "<map name=\"temp\"></map>" := by decide
    simp [parse_html_map, hw, h, parse_areas]

/-- Witness for C4: the empty input against a parser that finds no
area elements in the wrapped empty document yields no regions. -/
theorem parse_html_never_raises_witness :
    parse_html_map (fun _ => Except.ok []) "" = [] :=
  (parse_html_never_raises (fun _ => Except.ok []) "").2.2 rfl

/-- C5: on every accepted area element, href defaults to the hash
string when absent, alt and title default to the empty string when
absent, and each attribute's value is kept unchanged when present. -/
theorem region_attribute_defaults (a : AreaTag) (r : Region)
    (h : parse_area a = some r) :
    (a.href = none → r.href = "#") ∧ (∀ s, a.href = some s → r.href = s) ∧
    (a.alt = none → r.alt = "") ∧ (∀ s, a.alt = some s → r.alt = s) ∧
    (a.title = none → r.title = "") ∧ (∀ s, a.title = some s → r.title = s) := by
  rw [parse_area_eq] at h
  by_cases hv : isValidArea a
  · simp only [hv, if_true, Option.some.injEq] at h
    subst h
    refine ⟨fun hn => by simp [regionOf, hn], fun s hs => by simp [regionOf, hs],
      fun hn => by simp [regionOf, hn], fun s hs => by simp [regionOf, hs],
      fun hn => by simp [regionOf, hn], fun s hs => by simp [regionOf, hs]⟩
  · simp [hv] at h

/-- Witness for C5: the spec scenario element with href and alt present
and title absent. -/
theorem region_attribute_defaults_witness :
    (Region.mk [0, 0, 100, 50] "/a" "A" "" "rect").href = "/a" ∧
      (Region.mk [0, 0, 100, 50] "/a" "A" "" "rect").title = "" := by
  have h : parse_area (AreaTag.mk (some "0,0,100,50") (some "/a") (some "A") none none) =
      some (Region.mk [0, 0, 100, 50] "/a" "A" "" "rect") := by decide
  exact ⟨(region_attribute_defaults _ _ h).2.1 "/a" rfl,
    (region_attribute_defaults _ _ h).2.2.2.2.1 rfl⟩

/-- C6 counterexample: the claim that every returned region satisfies
x1 < x2 and y1 < y2 is false — the parser performs no ordering check,
so the element with coords 10,10,5,5 yields a region violating it
(exactly the spec's own degenerate-slice scenario). -/
theorem parse_region_ordering_counterexample :
    ¬ ∀ r ∈ parse_areas [AreaTag.mk (some "10,10,5,5") none none none (some "rect")],
        regionOrdered r = true := by decide

/-- C6 amended: every region returned by the parser has a coordinate
list of exactly four integers; the ordering constraints x1 < x2 and
y1 < y2 are not enforced by the parser and are checked only later by
validate_coordinates and slice_image. -/
theorem parse_region_coords_length (areas : List AreaTag) (r : Region)
    (h : r ∈ parse_areas areas) : r.coords.length = 4 := by
  rw [parse_areas_eq] at h
  obtain ⟨a, ha, rfl⟩ := List.mem_map.mp h
  exact regionOf_coords_length a (List.mem_filter.mp ha).2

/-- Witness for the amended C6 at the degenerate-coords element. -/
theorem parse_region_coords_length_witness :
    (Region.mk [10, 10, 5, 5] "#" "" "" "rect").coords.length = 4 :=
  parse_region_coords_length
    [AreaTag.mk (some "10,10,5,5") none none none (some "rect")] _ (by decide)

/-- C9: an area element with valid four-integer coords and no shape
attribute is accepted with shape field rect; a present shape attribute
is compared case-insensitively against rect, and the accepted region
stores the attribute's original uncased value. -/
theorem parse_shape_case_insensitive (a : AreaTag) (cs : List Int)
    (hc : areaCoordsInts a = some cs) (h4 : cs.length = 4) :
    (a.shape = none → ∃ r, parse_area a = some r ∧ r.shape = "rect") ∧
    ∀ s, a.shape = some s →
      (pyLower s = "rect" → ∃ r, parse_area a = some r ∧ r.shape = s) ∧
      (pyLower s ≠ "rect" → parse_area a = none) := by
  have hne : a.coords.getD "" ≠ "" := by
    intro h
    rw [areaCoordsInts_of_empty a h] at hc
    exact Option.noConfusion hc
  have hrect : pyLower "rect" = "rect" := by decide
  constructor
  · intro hs
    refine ⟨Region.mk cs (a.href.getD "#") (a.alt.getD "")
      (a.title.getD "") "rect", ?_, rfl⟩
    unfold parse_area
    simp [hne, hc, h4, hs, hrect]
  · intro s hs
    constructor
    · intro hlow
      refine ⟨Region.mk cs (a.href.getD "#") (a.alt.getD "")
        (a.title.getD "") s, ?_, rfl⟩
      unfold parse_area
      simp [hne, hc, h4, hs, hlow]
    · intro hlow
      unfold parse_area
      simp [hne, hc, h4, hs, hlow]

/-- Witness for C9: coords 0,0,2,2 with shape RECT is accepted and the
region keeps the uppercase value. -/
theorem parse_shape_case_insensitive_witness :
    ∃ r, parse_area (AreaTag.mk (some "0,0,2,2") none none none (some "RECT")) =
      some r ∧ r.shape = "RECT" :=
  ((parse_shape_case_insensitive
      (AreaTag.mk (some "0,0,2,2") none none none (some "RECT"))
      [0, 0, 2, 2] (by decide) (by decide)).2 "RECT" rfl).1 (by decide)

/-- C7: the request batch delivers exactly one slice per parsed region,
sliced one at a time in parsed order with slice index equal to the
region's position; the first slice failure aborts the whole remaining
batch, removes the session's output files, and delivers nothing, so no
partial set of slices ever reaches the caller. -/
theorem batch_all_or_nothing (img : Image) (areas : List Region) (dir : String) :
    (∀ slices rem, process_image img areas dir = (some slices, rem) →
      slices.length = areas.length ∧ rem = [] ∧
      ∀ j (hj : j < areas.length) (hs : j < slices.length),
        slice_image img (areas.get ⟨j, hj⟩).coords j dir = .ok (slices.get ⟨j, hs⟩)) ∧
    ((∃ a ∈ areas, validate_coordinates a.coords img.width img.height = false) →
      process_image img areas dir = (none, [])) := by
  constructor
  · intro slices rem heq
    obtain ⟨hrem, tail, htail, hlen, hidx⟩ :=
      (process_slices_spec img dir areas 0 []).1 slices rem heq
    simp only [List.reverse_nil, List.nil_append] at htail
    subst htail
    refine ⟨hlen, hrem, ?_⟩
    intro j hj hs
    simpa using hidx j hj hs
  · exact (process_slices_spec img dir areas 0 []).2

/-- Witness for C7: a batch with one valid and one degenerate region
aborts with nothing delivered and no session files left. -/
theorem batch_all_or_nothing_witness :
    process_image ⟨200, 200, "PNG"⟩
      [Region.mk [0, 0, 100, 50] "#" "" "" "rect",
        Region.mk [10, 10, 5, 5] "#" "" "" "rect"] "out" = (none, []) :=
  (batch_all_or_nothing ⟨200, 200, "PNG"⟩
      [Region.mk [0, 0, 100, 50] "#" "" "" "rect",
        Region.mk [10, 10, 5, 5] "#" "" "" "rect"] "out").2
    ⟨Region.mk [10, 10, 5, 5] "#" "" "" "rect", by decide, by decide⟩
